import Mathlib

/-
Verification of the change-detection and notification pipeline of the
epic-free-games discord bot.

The embedding follows the Go sources:
  * internal/models/game.go        : Game, GameCollection, NewGameCollection
  * internal/database/database.go  : SaveGames, GetActiveGames, GetNewGames,
                                     CleanupOldGames (composite-key revision,
                                     UNIQUE(title, free_to))
  * internal/app/app.go            : performGameCheck, findNewGames, Run
  * internal/scraper (ScrapeGames) : retry loop of the fetcher
  * internal/bot (handleRefreshSlashCommand) : manual refresh entry point

Timestamps are modelled as integers (seconds); the SQLite expressions
datetime(now, -1 day) etc. become now - day with day = 86400.
A database table is a list of rows; the transactional behaviour of
SaveGames is modelled explicitly (committed state / working state,
rollback on failure, commit publishing the working state).
-/

/-- models.Game: one scraped promotion record (title, image_url, status,
free_from, free_to). -/
structure Game where
  title : String
  imageURL : String
  status : String
  freeFrom : String
  freeTo : String
deriving DecidableEq

/-- models.StatusFreeNow. -/
def statusFreeNow : String := "Free Now"

/-- models.StatusComingSoon. -/
def statusComingSoon : String := "Coming Soon"

/-- One day in seconds, the unit used by the SQLite datetime offsets. -/
def day : Int := 86400

/-- One row of the games table (composite-key revision of createTables):
title, image_url, status, free_from, free_to, created_at, updated_at,
last_seen, with UNIQUE(title, free_to). -/
structure Row where
  title : String
  imageURL : String
  status : String
  freeFrom : String
  freeTo : String
  createdAt : Int
  updatedAt : Int
  lastSeen : Int
deriving DecidableEq

/-- The SELECT title, image_url, status, free_from, free_to projection. -/
def rowToGame (r : Row) : Game :=
  { title := r.title, imageURL := r.imageURL, status := r.status,
    freeFrom := r.freeFrom, freeTo := r.freeTo }

/-- The composite key (title, free_to) of a stored row, the UNIQUE index
idx_games_title_free_to. -/
def rkey (r : Row) : String × String := (r.title, r.freeTo)

/-- The composite key (title, free_to) of an incoming record. -/
def gkey (g : Game) : String × String := (g.title, g.freeTo)

/-- The lookup key built by app.findNewGames: game.Title + vertical bar +
game.FreeTo. -/
def lookupKey (g : Game) : String := g.title ++ "|" ++ g.freeTo

/-- The same concatenated lookup key computed on a stored row. -/
def rowLookupKey (r : Row) : String := r.title ++ "|" ++ r.freeTo

/-- SaveGames, first statement: UPDATE games SET last_seen =
datetime(now, -1 day) on every row. -/
def markStale (now : Int) (db : List Row) : List Row :=
  db.map (fun r => { r with lastSeen := now - day })

/-- The DO UPDATE arm of the SaveGames statement: set image_url, status,
free_from, updated_at and last_seen; title, free_to and created_at keep
their stored values. -/
def updateRow (now : Int) (g : Game) (r : Row) : Row :=
  { r with imageURL := g.imageURL, status := g.status,
           freeFrom := g.freeFrom, updatedAt := now, lastSeen := now }

/-- The INSERT arm of the SaveGames statement: created_at, updated_at and
last_seen all default to now. -/
def freshRow (now : Int) (g : Game) : Row :=
  { title := g.title, imageURL := g.imageURL, status := g.status,
    freeFrom := g.freeFrom, freeTo := g.freeTo,
    createdAt := now, updatedAt := now, lastSeen := now }

/-- SaveGames, prepared statement for one record: INSERT a fresh row, ON
CONFLICT(title, free_to) DO UPDATE the stored row. -/
def upsert (now : Int) (db : List Row) (g : Game) : List Row :=
  if db.any (fun r => decide (rkey r = gkey g)) then
    db.map (fun r => if rkey r = gkey g then updateRow now g r else r)
  else
    db ++ [freshRow now g]

/-- The full effect of a successful SaveGames transaction: mark every row
stale, then upsert each incoming record in order. -/
def applySave (now : Int) (games : List Game) (db : List Row) : List Row :=
  games.foldl (upsert now) (markStale now db)

/-- The individual statements executed inside the SaveGames transaction. -/
def txSteps (now : Int) (games : List Game) : List (List Row → List Row) :=
  markStale now :: games.map (fun g db => upsert now db g)

/-- Transaction runner: committed is the visible table, working the
uncommitted state.  failAt counts the statement (or, past the last
statement, the COMMIT) that fails; a failure rolls back, leaving the
committed state; reaching the end commits the working state.  The Bool
reports success. -/
def execTx (committed working : List Row) (steps : List (List Row → List Row))
    (failAt : Option Nat) : List Row × Bool :=
  match steps, failAt with
  | _, some 0 => (committed, false)
  | [], some (_ + 1) => (working, true)
  | [], none => (working, true)
  | f :: rest, some (k + 1) => execTx committed (f working) rest (some k)
  | f :: rest, none => execTx committed (f working) rest none

/-- database.SaveGames: run the mark-stale statement and the upserts in one
transaction against the committed table. -/
def saveGames (now : Int) (games : List Game) (db : List Row)
    (failAt : Option Nat) : List Row × Bool :=
  execTx db db (txSteps now games) failAt

/-- Rank used by the ORDER BY CASE of GetActiveGames / GetNewGames. -/
def statusRank (s : String) : Nat :=
  if s = statusFreeNow then 1 else if s = statusComingSoon then 2 else 3

/-- Lexicographic byte comparison of two character lists; on UTF-8 data
this is code-point order, the order SQLite applies to TEXT columns under
the default BINARY collation. -/
def charsLE : List Char → List Char → Bool
  | [], _ => true
  | _ :: _, [] => false
  | a :: as, b :: bs =>
    if a.toNat < b.toNat then true
    else if b.toNat < a.toNat then false
    else charsLE as bs

/-- The collation applied by ORDER BY title. -/
def strLE (s t : String) : Bool := charsLE s.data t.data

/-- The ORDER BY relation: status rank first, then title. -/
def rowLE (r s : Row) : Prop :=
  statusRank r.status < statusRank s.status ∨
    (statusRank r.status = statusRank s.status ∧
      strLE r.title s.title = true)

instance : DecidableRel rowLE := fun r s => by
  unfold rowLE; infer_instance

/-- The same relation on the projected records. -/
def gameLE (g h : Game) : Prop :=
  statusRank g.status < statusRank h.status ∨
    (statusRank g.status = statusRank h.status ∧
      strLE g.title h.title = true)

instance : DecidableRel gameLE := fun g h => by
  unfold gameLE; infer_instance

theorem charsLE_total : ∀ x y : List Char,
    charsLE x y = true ∨ charsLE y x = true := by
  intro x
  induction x with
  | nil => intro y; left; rfl
  | cons a as ih =>
    intro y
    cases y with
    | nil => right; rfl
    | cons b bs =>
      rcases Nat.lt_trichotomy a.toNat b.toNat with h | h | h
      · left
        rw [charsLE, if_pos h]
      · have h1 : ¬ a.toNat < b.toNat := by omega
        have h2 : ¬ b.toNat < a.toNat := by omega
        rw [charsLE, if_neg h1, if_neg h2, charsLE, if_neg h2, if_neg h1]
        exact ih bs
      · right
        rw [charsLE, if_pos h]

theorem charsLE_trans : ∀ x y z : List Char,
    charsLE x y = true → charsLE y z = true → charsLE x z = true := by
  intro x
  induction x with
  | nil => intro y z _ _; rfl
  | cons a as ih =>
    intro y z hxy hyz
    cases y with
    | nil => rw [charsLE] at hxy; cases hxy
    | cons b bs =>
      cases z with
      | nil => rw [charsLE] at hyz; cases hyz
      | cons c cs =>
        rcases Nat.lt_trichotomy a.toNat b.toNat with h1 | h1 | h1
        · rcases Nat.lt_trichotomy b.toNat c.toNat with h2 | h2 | h2
          · rw [charsLE, if_pos (by omega : a.toNat < c.toNat)]
          · rw [charsLE, if_pos (by omega : a.toNat < c.toNat)]
          · rw [charsLE, if_neg (by omega : ¬ b.toNat < c.toNat),
              if_pos h2] at hyz
            cases hyz
        · rcases Nat.lt_trichotomy b.toNat c.toNat with h2 | h2 | h2
          · rw [charsLE, if_pos (by omega : a.toNat < c.toNat)]
          · rw [charsLE, if_neg (by omega : ¬ a.toNat < b.toNat),
              if_neg (by omega : ¬ b.toNat < a.toNat)] at hxy
            rw [charsLE, if_neg (by omega : ¬ b.toNat < c.toNat),
              if_neg (by omega : ¬ c.toNat < b.toNat)] at hyz
            rw [charsLE, if_neg (by omega : ¬ a.toNat < c.toNat),
              if_neg (by omega : ¬ c.toNat < a.toNat)]
            exact ih bs cs hxy hyz
          · rw [charsLE, if_neg (by omega : ¬ b.toNat < c.toNat),
              if_pos h2] at hyz
            cases hyz
        · rw [charsLE, if_neg (by omega : ¬ a.toNat < b.toNat),
            if_pos h1] at hxy
          cases hxy

theorem strLE_total (s t : String) :
    strLE s t = true ∨ strLE t s = true :=
  charsLE_total s.data t.data

theorem strLE_trans (s t u : String) (h1 : strLE s t = true)
    (h2 : strLE t u = true) : strLE s u = true :=
  charsLE_trans s.data t.data u.data h1 h2

/-- WHERE clause of GetActiveGames: status IN (Free Now, Coming Soon) AND
last_seen newer than 7 days ago. -/
def ActiveAt (now : Int) (r : Row) : Prop :=
  (r.status = statusFreeNow ∨ r.status = statusComingSoon) ∧
    now - 7 * day < r.lastSeen

instance (now : Int) (r : Row) : Decidable (ActiveAt now r) := by
  unfold ActiveAt; infer_instance

/-- database.GetActiveGames, row level: filter by the active predicate and
sort by the ORDER BY relation. -/
def getActiveRows (now : Int) (db : List Row) : List Row :=
  (db.filter (fun r => decide (ActiveAt now r))).insertionSort rowLE

/-- database.GetActiveGames: the projected records, in query order. -/
def getActiveGames (now : Int) (db : List Row) : List Game :=
  (getActiveRows now db).map rowToGame

/-- WHERE clause of GetNewGames: created_at strictly after the cutoff AND
status IN (Free Now, Coming Soon). -/
def CreatedSince (since : Int) (r : Row) : Prop :=
  since < r.createdAt ∧
    (r.status = statusFreeNow ∨ r.status = statusComingSoon)

instance (since : Int) (r : Row) : Decidable (CreatedSince since r) := by
  unfold CreatedSince; infer_instance

/-- database.GetNewGames, row level. -/
def getNewRows (since : Int) (db : List Row) : List Row :=
  (db.filter (fun r => decide (CreatedSince since r))).insertionSort rowLE

/-- database.GetNewGames: the projected records, in query order. -/
def getNewGames (since : Int) (db : List Row) : List Game :=
  (getNewRows since db).map rowToGame

/-- database.CleanupOldGames: DELETE FROM games WHERE last_seen older than
30 days; the surviving table keeps every other row. -/
def cleanupOldGames (now : Int) (db : List Row) : List Row :=
  db.filter (fun r => decide (¬ r.lastSeen < now - 30 * day))

/-- models.GameCollection: games categorized by status. -/
structure GameCollection where
  FreeNow : List Game
  ComingSoon : List Game
deriving DecidableEq

/-- The switch on game.Status inside models.NewGameCollection: append a
Free Now game to FreeNow, a Coming Soon game to ComingSoon, drop every
other status. -/
def categorize (c : GameCollection) (g : Game) : GameCollection :=
  if g.status = statusFreeNow then
    { c with FreeNow := c.FreeNow ++ [g] }
  else if g.status = statusComingSoon then
    { c with ComingSoon := c.ComingSoon ++ [g] }
  else c

/-- models.NewGameCollection: categorize each game in order. -/
def NewGameCollection (games : List Game) : GameCollection :=
  games.foldl categorize { FreeNow := [], ComingSoon := [] }

/-- The lookup keys findNewGames records for the current collection
(FreeNow entries then ComingSoon entries). -/
def existingKeys (current : GameCollection) : List String :=
  current.FreeNow.map lookupKey ++ current.ComingSoon.map lookupKey

/-- app.findNewGames: keep the scraped games whose lookup key is not among
the current games, then categorize them. -/
def findNewGames (scraped : List Game) (current : GameCollection) :
    GameCollection :=
  NewGameCollection
    (scraped.filter (fun g => decide (lookupKey g ∉ existingKeys current)))

/-- scraper.ScrapeGames retry loop: each attempt either errors (none) or
returns a list; an attempt succeeds when it did not error and returned a
non-empty list, otherwise the next attempt runs; exhausting the attempts
(three in the source) is a fetch error. -/
def scrapeAttempts : List (Option (List Game)) → Option (List Game)
  | [] => none
  | some gs :: rest => if gs.isEmpty then scrapeAttempts rest else some gs
  | none :: rest => scrapeAttempts rest

/-- App.lastCheck and the games table visible to one process. -/
structure AppState where
  db : List Row
  lastCheck : Int
deriving DecidableEq

/-- The external events of one cycle: the wall-clock time, the outcomes of
the fetch attempts, and the failure oracles of the store read, the store
write (statement index) and the notifier. -/
structure CycleInput where
  now : Int
  attempts : List (Option (List Game))
  readFail : Bool
  saveFail : Option Nat
  notifyFail : Bool

/-- Observable outcome of one cycle: the state afterwards, the collection
handed to SendGameUpdates (none when the notifier was not invoked), and
whether performGameCheck returned an error (which Run reports through
SendErrorMessage). -/
structure CycleResult where
  state : AppState
  notified : Option GameCollection
  failed : Bool
deriving DecidableEq

/-- app.performGameCheck after the scrape succeeded with a non-empty list
and GetActiveGames succeeded: compute findNewGames against the pre-save
active collection, run SaveGames, and only on commit success send the new
games (when there are any). -/
def performSaveAndNotify (inp : CycleInput) (s : AppState)
    (scraped : List Game) : CycleResult :=
  let newGames :=
    findNewGames scraped (NewGameCollection (getActiveGames inp.now s.db))
  match saveGames inp.now scraped s.db inp.saveFail with
  | (dbA, false) =>
    { state := { db := dbA, lastCheck := s.lastCheck },
      notified := none, failed := true }
  | (dbA, true) =>
    if newGames.FreeNow.isEmpty && newGames.ComingSoon.isEmpty then
      { state := { db := dbA, lastCheck := inp.now },
        notified := none, failed := false }
    else if inp.notifyFail then
      { state := { db := dbA, lastCheck := s.lastCheck },
        notified := some newGames, failed := true }
    else
      { state := { db := dbA, lastCheck := inp.now },
        notified := some newGames, failed := false }

/-- app.performGameCheck: scrape; on scrape error return the error; on an
empty scrape return without error; on a read error return the error;
otherwise detect, save and notify.  lastCheck advances only when no error
occurred. -/
def performGameCheck (inp : CycleInput) (s : AppState) : CycleResult :=
  match scrapeAttempts inp.attempts with
  | none => { state := s, notified := none, failed := true }
  | some scraped =>
    if scraped.isEmpty then { state := s, notified := none, failed := false }
    else if inp.readFail then
      { state := s, notified := none, failed := true }
    else performSaveAndNotify inp s scraped

/-- The state after running a sequence of cycles from app.Run. -/
def stateAfter (s : AppState) : List CycleInput → AppState
  | [] => s
  | inp :: rest => stateAfter (performGameCheck inp s).state rest

/-- The lookup keys of the records delivered in one notification. -/
def notifiedKeys (c : GameCollection) : List String :=
  (c.FreeNow ++ c.ComingSoon).map lookupKey

/-- bot.handleRefreshSlashCommand, decision level: whether the handler
invokes RefreshGames, as a function of whether the deferred interaction
acknowledgement failed and of whether a scheduled cycle is currently
running.  The source consults no scheduler state at all: its only early
return precedes the refresh when the acknowledgement fails. -/
def handleRefreshInvokesCycle (deferFailed : Bool)
    (_schedulerRunning : Bool) : Bool :=
  if deferFailed then false else true

/- ### Basic lemmas about the collection builder -/

theorem statusFreeNow_ne_comingSoon : statusFreeNow ≠ statusComingSoon := by
  decide

theorem statusComingSoon_ne_freeNow : statusComingSoon ≠ statusFreeNow := by
  decide

theorem foldl_categorize (games : List Game) (c : GameCollection) :
    games.foldl categorize c =
      { FreeNow :=
          c.FreeNow ++ games.filter (fun g => decide (g.status = statusFreeNow)),
        ComingSoon :=
          c.ComingSoon ++
            games.filter (fun g => decide (g.status = statusComingSoon)) } := by
  induction games generalizing c with
  | nil => simp
  | cons g rest ih =>
    simp only [List.foldl_cons, List.filter_cons]
    by_cases h1 : g.status = statusFreeNow
    · have h2 : ¬ g.status = statusComingSoon := by
        rw [h1]; decide
      simp [categorize, h1, h2, ih, statusFreeNow_ne_comingSoon]
    · by_cases h2 : g.status = statusComingSoon
      · simp [categorize, h1, h2, ih, statusComingSoon_ne_freeNow]
      · simp [categorize, h1, h2, ih]

theorem newGameCollection_freeNow (games : List Game) :
    (NewGameCollection games).FreeNow =
      games.filter (fun g => decide (g.status = statusFreeNow)) := by
  simp [NewGameCollection, foldl_categorize]

theorem newGameCollection_comingSoon (games : List Game) :
    (NewGameCollection games).ComingSoon =
      games.filter (fun g => decide (g.status = statusComingSoon)) := by
  simp [NewGameCollection, foldl_categorize]

/- ### Order lemmas for the query relation -/

theorem statusRank_freeNow : statusRank statusFreeNow = 1 := by decide

theorem statusRank_comingSoon : statusRank statusComingSoon = 2 := by decide

instance : IsTotal Row rowLE := by
  constructor
  intro a b
  rcases Nat.lt_trichotomy (statusRank a.status) (statusRank b.status) with
    h | h | h
  · exact Or.inl (Or.inl h)
  · rcases strLE_total a.title b.title with ht | ht
    · exact Or.inl (Or.inr ⟨h, ht⟩)
    · exact Or.inr (Or.inr ⟨h.symm, ht⟩)
  · exact Or.inr (Or.inl h)

instance : IsTrans Row rowLE := by
  constructor
  intro a b c hab hbc
  rcases hab with hab | ⟨e1, t1⟩
  · rcases hbc with hbc | ⟨e2, t2⟩
    · exact Or.inl (Nat.lt_trans hab hbc)
    · exact Or.inl (e2 ▸ hab)
  · rcases hbc with hbc | ⟨e2, t2⟩
    · exact Or.inl (e1 ▸ hbc)
    · exact Or.inr ⟨e1.trans e2, strLE_trans _ _ _ t1 t2⟩

theorem rowLE_to_gameLE (a b : Row) (h : rowLE a b) :
    gameLE (rowToGame a) (rowToGame b) := h

theorem sorted_getActiveRows (now : Int) (db : List Row) :
    (getActiveRows now db).Sorted rowLE :=
  List.sorted_insertionSort rowLE _

theorem sorted_getNewRows (since : Int) (db : List Row) :
    (getNewRows since db).Sorted rowLE :=
  List.sorted_insertionSort rowLE _

theorem sorted_getActiveGames (now : Int) (db : List Row) :
    (getActiveGames now db).Sorted gameLE :=
  List.Pairwise.map rowToGame rowLE_to_gameLE (sorted_getActiveRows now db)

theorem sorted_getNewGames (since : Int) (db : List Row) :
    (getNewGames since db).Sorted gameLE :=
  List.Pairwise.map rowToGame rowLE_to_gameLE (sorted_getNewRows since db)

theorem gameLE_no_inversion (g h : Game) (hle : gameLE g h)
    (hg : g.status = statusComingSoon) : h.status ≠ statusFreeNow := by
  intro hh
  rcases hle with hlt | ⟨he, _⟩
  · rw [hg, hh, statusRank_comingSoon, statusRank_freeNow] at hlt
    omega
  · rw [hg, hh, statusRank_comingSoon, statusRank_freeNow] at he
    omega

/- ### Claims C9, C10, C4 -/

/-- C9: for every Store state, the lists returned by GetActiveGames and
GetNewGames are ordered by the query relation (all Free Now records before
all Coming Soon records, alphabetically by title within each partition);
in particular no Coming Soon record ever precedes a Free Now record. -/
theorem c9_query_order (now since : Int) (db : List Row) :
    (getActiveGames now db).Sorted gameLE ∧
    (getNewGames since db).Sorted gameLE ∧
    (getActiveGames now db).Pairwise
      (fun g h => g.status = statusComingSoon → h.status ≠ statusFreeNow) ∧
    (getNewGames since db).Pairwise
      (fun g h => g.status = statusComingSoon → h.status ≠ statusFreeNow) := by
  refine ⟨sorted_getActiveGames now db, sorted_getNewGames since db, ?_, ?_⟩
  · exact (sorted_getActiveGames now db).imp
      (fun hle hg => gameLE_no_inversion _ _ hle hg)
  · exact (sorted_getNewGames since db).imp
      (fun hle hg => gameLE_no_inversion _ _ hle hg)

/-- C10: building a GameCollection puts exactly the Free Now games in the
FreeNow partition and exactly the Coming Soon games in the ComingSoon
partition (any other status is dropped from both partitions, hence from
every notification, which sends only the two partitions), and no game
appears in both partitions. -/
theorem c10_collection_partition (games : List Game) :
    (NewGameCollection games).FreeNow =
      games.filter (fun g => decide (g.status = statusFreeNow)) ∧
    (NewGameCollection games).ComingSoon =
      games.filter (fun g => decide (g.status = statusComingSoon)) ∧
    ∀ g, g ∈ (NewGameCollection games).FreeNow →
      g ∉ (NewGameCollection games).ComingSoon := by
  refine ⟨newGameCollection_freeNow games, newGameCollection_comingSoon games,
    ?_⟩
  intro g hg hg2
  rw [newGameCollection_freeNow] at hg
  rw [newGameCollection_comingSoon] at hg2
  have h1 := (List.mem_filter.mp hg).2
  have h2 := (List.mem_filter.mp hg2).2
  simp only [decide_eq_true_eq] at h1 h2
  exact statusFreeNow_ne_comingSoon (h1.symm.trans h2)

/-- Witness for C10 at a concrete input: a Free Now game categorized into
the FreeNow partition is absent from the ComingSoon partition. -/
theorem c10_collection_partition_witness :
    { title := "A", imageURL := "", status := statusFreeNow, freeFrom := "",
      freeTo := "B" : Game } ∉
      (NewGameCollection
        [{ title := "A", imageURL := "", status := statusFreeNow,
           freeFrom := "", freeTo := "B" }]).ComingSoon :=
  (c10_collection_partition _).2.2 _ (by decide)

/-- C4: the claim says a manual refresh trigger arriving while a cycle is
running is rejected or a no-op.  The /refresh handler consults no
scheduler state: whenever its deferred acknowledgement succeeds it invokes
the refresh cycle, in particular while a scheduled cycle is running. -/
theorem c4_manual_trigger_not_rejected :
    handleRefreshInvokesCycle false true = true := rfl

/- ### Transaction lemmas -/

theorem execTx_cases (steps : List (List Row → List Row)) :
    ∀ (committed working : List Row) (failAt : Option Nat),
      execTx committed working steps failAt = (committed, false) ∨
      execTx committed working steps failAt =
        (steps.foldl (fun s f => f s) working, true) := by
  induction steps with
  | nil =>
    intro c w fa
    match fa with
    | none => exact Or.inr rfl
    | some 0 => exact Or.inl rfl
    | some (k + 1) => exact Or.inr rfl
  | cons f rest ih =>
    intro c w fa
    match fa with
    | none =>
      rcases ih c (f w) none with h | h
      · exact Or.inl h
      · exact Or.inr h
    | some 0 => exact Or.inl rfl
    | some (k + 1) =>
      rcases ih c (f w) (some k) with h | h
      · exact Or.inl h
      · exact Or.inr h

theorem foldl_txSteps (now : Int) (games : List Game) (db : List Row) :
    (txSteps now games).foldl (fun s f => f s) db =
      applySave now games db := by
  rw [txSteps, List.foldl_cons, List.foldl_map]
  rfl

theorem saveGames_spec (now : Int) (games : List Game) (db : List Row)
    (failAt : Option Nat) :
    saveGames now games db failAt = (db, false) ∨
    saveGames now games db failAt = (applySave now games db, true) := by
  rcases execTx_cases (txSteps now games) db db failAt with h | h
  · exact Or.inl h
  · exact Or.inr (by rw [saveGames, h, foldl_txSteps])

theorem execTx_none (steps : List (List Row → List Row)) :
    ∀ (committed working : List Row),
      execTx committed working steps none =
        (steps.foldl (fun s f => f s) working, true) := by
  induction steps with
  | nil => intro c w; rfl
  | cons f rest ih => intro c w; exact ih c (f w)

theorem saveGames_none (now : Int) (games : List Game) (db : List Row) :
    saveGames now games db none = (applySave now games db, true) := by
  rw [saveGames, execTx_none, foldl_txSteps]

/- ### Scrape lemmas -/

theorem scrapeAttempts_some_ne_nil :
    ∀ (atts : List (Option (List Game))) (gs : List Game),
      scrapeAttempts atts = some gs → gs ≠ [] := by
  intro atts
  induction atts with
  | nil => intro gs h; exact absurd h (by simp [scrapeAttempts])
  | cons a rest ih =>
    intro gs h
    match a with
    | none => exact ih gs h
    | some l =>
      rw [scrapeAttempts] at h
      by_cases hl : l.isEmpty
      · rw [if_pos hl] at h
        exact ih gs h
      · rw [if_neg hl] at h
        cases h
        exact fun hnil => hl (by rw [hnil]; rfl)

theorem scrapeAttempts_all_bad :
    ∀ (atts : List (Option (List Game))),
      (∀ a ∈ atts, a = none ∨ a = some []) → scrapeAttempts atts = none := by
  intro atts
  induction atts with
  | nil => intro _; rfl
  | cons a rest ih =>
    intro h
    rcases h a (List.mem_cons_self a rest) with ha | ha
    · rw [ha, scrapeAttempts]
      exact ih fun b hb => h b (List.mem_cons_of_mem a hb)
    · rw [ha, scrapeAttempts]
      have hnil : ([] : List Game).isEmpty = true := rfl
      rw [if_pos hnil]
      exact ih fun b hb => h b (List.mem_cons_of_mem a hb)

/- ### Claims C7 and C8 -/

/-- C7: when the fetch fails the cycle aborts with an error (which Run
reports through SendErrorMessage) without touching the store, notifying,
or advancing lastCheck; a fetch whose every attempt errors or scrapes an
empty list fails; a successful fetch never returns an empty list. -/
theorem c7_fetch_failure_aborts :
    (∀ (inp : CycleInput) (s : AppState),
       scrapeAttempts inp.attempts = none →
       performGameCheck inp s =
         { state := s, notified := none, failed := true }) ∧
    (∀ (atts : List (Option (List Game))),
       (∀ a ∈ atts, a = none ∨ a = some []) → scrapeAttempts atts = none) ∧
    (∀ (atts : List (Option (List Game))) (gs : List Game),
       scrapeAttempts atts = some gs → gs ≠ []) := by
  refine ⟨?_, scrapeAttempts_all_bad, scrapeAttempts_some_ne_nil⟩
  intro inp s h
  simp only [performGameCheck, h]

/-- Witness for C7: a cycle whose three scrape attempts all fail leaves
the state untouched, sends nothing, and reports the failure. -/
theorem c7_fetch_failure_aborts_witness :
    performGameCheck
      { now := 5, attempts := [none, none, none], readFail := false,
        saveFail := none, notifyFail := false }
      { db := [], lastCheck := 3 } =
      { state := { db := [], lastCheck := 3 }, notified := none,
        failed := true } :=
  c7_fetch_failure_aborts.1 _ _ rfl

/-- C8: SaveGames is atomic (any failure rolls the table back to the prior
state, success applies the whole batch), and a SaveGames failure during a
cycle aborts the cycle before any notifier call, leaving the state
untouched and reporting the error. -/
theorem c8_save_atomic_aborts_before_notify :
    (∀ (now : Int) (games : List Game) (db : List Row) (failAt : Option Nat),
       saveGames now games db failAt = (db, false) ∨
       saveGames now games db failAt = (applySave now games db, true)) ∧
    (∀ (inp : CycleInput) (s : AppState) (scraped : List Game),
       scrapeAttempts inp.attempts = some scraped →
       scraped.isEmpty = false →
       inp.readFail = false →
       (saveGames inp.now scraped s.db inp.saveFail).2 = false →
       performGameCheck inp s =
         { state := s, notified := none, failed := true }) := by
  refine ⟨saveGames_spec, ?_⟩
  intro inp s scraped h1 h2 h3 h4
  have hsave : saveGames inp.now scraped s.db inp.saveFail = (s.db, false) := by
    rcases saveGames_spec inp.now scraped s.db inp.saveFail with h | h
    · exact h
    · rw [h] at h4; cases h4
  simp only [performGameCheck, h1, h2, Bool.false_eq_true, if_false, h3,
    performSaveAndNotify, hsave]

/- ### Membership lemmas for the active set and the detector -/

theorem mem_getActiveRows (now : Int) (db : List Row) (r : Row)
    (hr : r ∈ db) (ha : ActiveAt now r) : r ∈ getActiveRows now db := by
  rw [getActiveRows, List.mem_insertionSort]
  exact List.mem_filter.mpr ⟨hr, by simpa using ha⟩

theorem mem_getActiveRows_inv (now : Int) (db : List Row) (r : Row)
    (h : r ∈ getActiveRows now db) : r ∈ db ∧ ActiveAt now r := by
  rw [getActiveRows, List.mem_insertionSort] at h
  have := List.mem_filter.mp h
  exact ⟨this.1, by simpa using this.2⟩

theorem lookupKey_rowToGame (r : Row) :
    lookupKey (rowToGame r) = rowLookupKey r := rfl

theorem active_key_mem_existing (now : Int) (db : List Row) (r : Row)
    (hr : r ∈ db) (ha : ActiveAt now r) :
    rowLookupKey r ∈
      existingKeys (NewGameCollection (getActiveGames now db)) := by
  have hmem : rowToGame r ∈ getActiveGames now db :=
    List.mem_map_of_mem rowToGame (mem_getActiveRows now db r hr ha)
  rw [existingKeys, List.mem_append]
  rcases ha.1 with hst | hst
  · left
    rw [newGameCollection_freeNow]
    refine List.mem_map_of_mem lookupKey (List.mem_filter.mpr ⟨hmem, ?_⟩)
    simpa [rowToGame] using hst
  · right
    rw [newGameCollection_comingSoon]
    refine List.mem_map_of_mem lookupKey (List.mem_filter.mpr ⟨hmem, ?_⟩)
    simpa [rowToGame] using hst

theorem existing_key_from_active (now : Int) (db : List Row) (k : String)
    (h : k ∈ existingKeys (NewGameCollection (getActiveGames now db))) :
    ∃ r, r ∈ db ∧ ActiveAt now r ∧ rowLookupKey r = k := by
  rw [existingKeys, List.mem_append, newGameCollection_freeNow,
    newGameCollection_comingSoon] at h
  have h2 : ∃ g, g ∈ getActiveGames now db ∧ lookupKey g = k := by
    rcases h with h | h
    · rcases List.mem_map.mp h with ⟨g, hg, hk⟩
      exact ⟨g, (List.mem_filter.mp hg).1, hk⟩
    · rcases List.mem_map.mp h with ⟨g, hg, hk⟩
      exact ⟨g, (List.mem_filter.mp hg).1, hk⟩
  rcases h2 with ⟨g, hg, hk⟩
  rcases List.mem_map.mp hg with ⟨r, hrmem, hrg⟩
  have hr := mem_getActiveRows_inv now db r hrmem
  exact ⟨r, hr.1, hr.2, by rw [← lookupKey_rowToGame, hrg, hk]⟩

theorem mem_findNewGames_freeNow (scraped : List Game)
    (cur : GameCollection) (g : Game) :
    g ∈ (findNewGames scraped cur).FreeNow ↔
      g ∈ scraped ∧ lookupKey g ∉ existingKeys cur ∧
        g.status = statusFreeNow := by
  rw [findNewGames, newGameCollection_freeNow, List.mem_filter,
    List.mem_filter]
  simp [and_assoc]

theorem mem_findNewGames_comingSoon (scraped : List Game)
    (cur : GameCollection) (g : Game) :
    g ∈ (findNewGames scraped cur).ComingSoon ↔
      g ∈ scraped ∧ lookupKey g ∉ existingKeys cur ∧
        g.status = statusComingSoon := by
  rw [findNewGames, newGameCollection_comingSoon, List.mem_filter,
    List.mem_filter]
  simp [and_assoc]

/- ### Cycle analysis lemmas -/

theorem scrapeAttempts_single (S : List Game) (hS : S ≠ []) :
    scrapeAttempts [some S] = some S := by
  rw [scrapeAttempts, if_neg]
  simpa using hS

theorem performGameCheck_notified_eq (inp : CycleInput) (s : AppState)
    (c : GameCollection)
    (h : (performGameCheck inp s).notified = some c) :
    ∃ scraped, scrapeAttempts inp.attempts = some scraped ∧
      c = findNewGames scraped
            (NewGameCollection (getActiveGames inp.now s.db)) := by
  unfold performGameCheck at h
  split at h
  · cases h
  · next scraped hs =>
    split at h
    · cases h
    · split at h
      · cases h
      · refine ⟨scraped, hs, ?_⟩
        unfold performSaveAndNotify at h
        rcases hsv : saveGames inp.now scraped s.db inp.saveFail with ⟨dbA, ok⟩
        rw [hsv] at h
        cases ok
        · simp at h
        · dsimp only at h
          split at h
          · simp at h
          · split at h
            · exact (Option.some_inj.mp h).symm
            · exact (Option.some_inj.mp h).symm

theorem performGameCheck_db_ok (t : Int) (S : List Game) (s : AppState)
    (hS : S ≠ []) :
    (performGameCheck
      { now := t, attempts := [some S], readFail := false,
        saveFail := none, notifyFail := false } s).state.db =
      applySave t S s.db := by
  have hs : scrapeAttempts [some S] = some S := scrapeAttempts_single S hS
  have he : S.isEmpty = false := by simpa using hS
  unfold performGameCheck
  simp only [hs, he, Bool.false_eq_true, if_false]
  unfold performSaveAndNotify
  simp only [saveGames_none]
  split
  · rfl
  · rfl

/- ### Claim C1 -/

/-- A promotion record used in the concrete traces. -/
def gameAlpha : Game :=
  { title := "Alpha", imageURL := "", status := statusFreeNow,
    freeFrom := "", freeTo := "Jul 10" }

/-- The stored row created for gameAlpha by a save at time 0. -/
def rowAlpha : Row :=
  { title := "Alpha", imageURL := "", status := statusFreeNow,
    freeFrom := "", freeTo := "Jul 10", createdAt := 0, updatedAt := 0,
    lastSeen := 0 }

/-- The collection notified for gameAlpha alone. -/
def collAlpha : GameCollection := { FreeNow := [gameAlpha], ComingSoon := [] }

/-- A failure-free cycle at time 0 scraping exactly gameAlpha. -/
def cycleAlphaAt0 : CycleInput :=
  { now := 0, attempts := [some [gameAlpha]], readFail := false,
    saveFail := none, notifyFail := false }

/-- A failure-free cycle eight days later scraping gameAlpha again. -/
def cycleAlphaAt8d : CycleInput :=
  { now := 8 * day, attempts := [some [gameAlpha]], readFail := false,
    saveFail := none, notifyFail := false }

/-- The initial application state: empty table. -/
def emptyState : AppState := { db := [], lastCheck := 0 }

/-- Counterexample to C1 as stated: the same record (identical title and
availableUntil) is handed to the Notifier in two cycles eight days apart,
although it was never purged from the Store — its row is still present
when the second cycle runs (and afterwards).  It merely fell out of the
7-day active window consulted by findNewGames. -/
theorem c1_counterexample :
    (performGameCheck cycleAlphaAt0 emptyState).notified = some collAlpha ∧
    (performGameCheck cycleAlphaAt8d
        (performGameCheck cycleAlphaAt0 emptyState).state).notified =
      some collAlpha ∧
    (∃ r ∈ (performGameCheck cycleAlphaAt0 emptyState).state.db,
       rowLookupKey r = lookupKey gameAlpha) ∧
    (∃ r ∈ (performGameCheck cycleAlphaAt8d
        (performGameCheck cycleAlphaAt0 emptyState).state).state.db,
       rowLookupKey r = lookupKey gameAlpha) := by
  decide

/-- C1 amended: across any sequence of cycles, a record key is handed to
the Notifier a second time only if, when the later delivery happens, every
stored row with that key is outside the active set (purged, last seen more
than 7 days before, or carrying a non-active status). -/
theorem c1_no_duplicate_while_active
    (s0 : AppState) (pre mid : List CycleInput) (inp1 inp2 : CycleInput)
    (k : String) (c1 c2 : GameCollection)
    (h1 : (performGameCheck inp1 (stateAfter s0 pre)).notified = some c1)
    (hk1 : k ∈ notifiedKeys c1)
    (h2 : (performGameCheck inp2
            (stateAfter s0 (pre ++ inp1 :: mid))).notified = some c2)
    (hk2 : k ∈ notifiedKeys c2) :
    ∀ r, r ∈ (stateAfter s0 (pre ++ inp1 :: mid)).db →
      rowLookupKey r = k → ¬ ActiveAt inp2.now r := by
  intro r hr hrk hact
  rcases performGameCheck_notified_eq inp2 _ c2 h2 with ⟨scraped, _, hc⟩
  subst hc
  rw [notifiedKeys] at hk2
  rcases List.mem_map.mp hk2 with ⟨g, hgmem, hgk⟩
  have hnot : lookupKey g ∉
      existingKeys (NewGameCollection
        (getActiveGames inp2.now (stateAfter s0 (pre ++ inp1 :: mid)).db)) := by
    rcases List.mem_append.mp hgmem with hg | hg
    · exact ((mem_findNewGames_freeNow _ _ _).mp hg).2.1
    · exact ((mem_findNewGames_comingSoon _ _ _).mp hg).2.1
  have hin := active_key_mem_existing inp2.now _ r hr hact
  rw [hrk, ← hgk] at hin
  exact hnot hin

/-- Witness for the amended C1 at the concrete trace of the
counterexample: at the second delivery the stored Alpha row is indeed no
longer in the active window. -/
theorem c1_no_duplicate_while_active_witness :
    ¬ ActiveAt cycleAlphaAt8d.now rowAlpha :=
  c1_no_duplicate_while_active emptyState [] [] cycleAlphaAt0 cycleAlphaAt8d
    (lookupKey gameAlpha) collAlpha collAlpha (by decide) (by decide)
    (by decide) (by decide) rowAlpha (by decide) (by decide)

/- ### Upsert lemmas -/

theorem markStale_lastSeen (now : Int) (db : List Row) :
    ∀ r ∈ markStale now db, r.lastSeen = now - day := by
  intro r hr
  rcases List.mem_map.mp hr with ⟨r0, _, hf⟩
  rw [← hf]

theorem upsert_key_fields (now : Int) (db : List Row) (g : Game) :
    ∀ r ∈ upsert now db g, rkey r = gkey g →
      r.lastSeen = now ∧ r.status = g.status := by
  intro r hr hk
  rw [upsert] at hr
  split at hr
  · rcases List.mem_map.mp hr with ⟨r0, hr0, hf⟩
    by_cases h0 : rkey r0 = gkey g
    · rw [if_pos h0] at hf
      rw [← hf]
      exact ⟨rfl, rfl⟩
    · rw [if_neg h0] at hf
      rw [← hf] at hk
      exact absurd hk h0
  · next hany =>
    rcases List.mem_append.mp hr with h | h
    · exact absurd (List.any_eq_true.mpr ⟨r, h, by simpa using hk⟩) hany
    · rw [List.mem_singleton.mp h]
      exact ⟨rfl, rfl⟩

theorem upsert_mem_of_ne (now : Int) (db : List Row) (g : Game) (r : Row)
    (hr : r ∈ upsert now db g) (hne : rkey r ≠ gkey g) : r ∈ db := by
  rw [upsert] at hr
  split at hr
  · rcases List.mem_map.mp hr with ⟨r0, hr0, hf⟩
    by_cases h0 : rkey r0 = gkey g
    · rw [if_pos h0] at hf
      rw [← hf] at hne
      exact absurd h0 hne
    · rw [if_neg h0] at hf
      rw [← hf]
      exact hr0
  · rcases List.mem_append.mp hr with h | h
    · exact h
    · rw [List.mem_singleton.mp h] at hne
      exact absurd rfl hne

theorem upsert_exists_key (now : Int) (db : List Row) (g : Game) :
    ∃ r ∈ upsert now db g, rkey r = gkey g := by
  rw [upsert]
  split
  · next hany =>
    rcases List.any_eq_true.mp hany with ⟨r0, hr0, hdec⟩
    have h0 : rkey r0 = gkey g := by simpa using hdec
    exact ⟨updateRow now g r0, List.mem_map.mpr ⟨r0, hr0, if_pos h0⟩, h0⟩
  · exact ⟨_, List.mem_append_right _ (List.mem_singleton_self _), rfl⟩

theorem upsert_preserves_key_exists (now : Int) (db : List Row) (g : Game)
    (k : String × String) (h : ∃ r ∈ db, rkey r = k) :
    ∃ r ∈ upsert now db g, rkey r = k := by
  by_cases hk : gkey g = k
  · obtain ⟨r, hr, hkey⟩ := upsert_exists_key now db g
    exact ⟨r, hr, hkey.trans hk⟩
  · obtain ⟨r0, hr0, hkey⟩ := h
    have hne : rkey r0 ≠ gkey g := fun he => hk (he.symm.trans hkey)
    rw [upsert]
    split
    · exact ⟨r0, List.mem_map.mpr ⟨r0, hr0, if_neg hne⟩, hkey⟩
    · exact ⟨r0, List.mem_append_left _ hr0, hkey⟩

theorem foldl_preserves_key_exists (now : Int) (k : String × String) :
    ∀ (games : List Game) (db : List Row), (∃ r ∈ db, rkey r = k) →
      ∃ r ∈ games.foldl (upsert now) db, rkey r = k := by
  intro games
  induction games with
  | nil => intro db h; exact h
  | cons g rest ih =>
    intro db h
    exact ih (upsert now db g) (upsert_preserves_key_exists now db g k h)

theorem foldl_upsert_lastSeen_inv (now : Int) (k : String × String) :
    ∀ (games : List Game) (db : List Row),
      (∀ r ∈ db, rkey r = k → r.lastSeen = now) →
      ∀ r ∈ games.foldl (upsert now) db, rkey r = k → r.lastSeen = now := by
  intro games
  induction games with
  | nil => intro db h; exact h
  | cons g rest ih =>
    intro db h
    refine ih (upsert now db g) ?_
    intro r hr hk
    by_cases hg : rkey r = gkey g
    · exact (upsert_key_fields now db g r hr hg).1
    · exact h r (upsert_mem_of_ne now db g r hr hg) hk

theorem foldl_upsert_status_inv (now : Int) (k : String × String)
    (st : String) :
    ∀ (games : List Game) (db : List Row),
      (∀ r ∈ db, rkey r = k → r.status = st) →
      (∀ g ∈ games, gkey g = k → g.status = st) →
      ∀ r ∈ games.foldl (upsert now) db, rkey r = k → r.status = st := by
  intro games
  induction games with
  | nil => intro db h _; exact h
  | cons g rest ih =>
    intro db h hg
    refine ih (upsert now db g)
      (fun r hr hk => ?_)
      (fun g2 hg2 => hg g2 (List.mem_cons_of_mem g hg2))
    by_cases hgk : rkey r = gkey g
    · have := (upsert_key_fields now db g r hr hgk).2
      rw [this]
      exact hg g (List.mem_cons_self g rest) (hgk ▸ hk)
    · exact h r (upsert_mem_of_ne now db g r hr hgk) hk

theorem foldl_upsert_untouched (now : Int) :
    ∀ (games : List Game) (db : List Row) (r : Row),
      r ∈ games.foldl (upsert now) db →
      (∀ g ∈ games, gkey g ≠ rkey r) → r ∈ db := by
  intro games
  induction games with
  | nil => intro db r h _; exact h
  | cons g rest ih =>
    intro db r h hne
    have h2 := ih (upsert now db g) r h
      (fun g2 hg2 => hne g2 (List.mem_cons_of_mem g hg2))
    exact upsert_mem_of_ne now db g r h2
      (fun he => hne g (List.mem_cons_self g rest) he.symm)

theorem applySave_mem_of_scraped (now : Int) (S : List Game) (db : List Row)
    (g : Game) (hg : g ∈ S)
    (hagree : ∀ g2 ∈ S, gkey g2 = gkey g → g2.status = g.status) :
    ∃ r ∈ applySave now S db,
      rkey r = gkey g ∧ r.lastSeen = now ∧ r.status = g.status := by
  rcases List.append_of_mem hg with ⟨S1, S2, hsplit⟩
  subst hsplit
  rw [applySave, List.foldl_append, List.foldl_cons]
  set db1 := upsert now (S1.foldl (upsert now) (markStale now db)) g with hdb1
  have hex : ∃ r ∈ S2.foldl (upsert now) db1, rkey r = gkey g :=
    foldl_preserves_key_exists now (gkey g) S2 db1
      (upsert_exists_key now _ g)
  rcases hex with ⟨r, hr, hk⟩
  refine ⟨r, hr, hk, ?_, ?_⟩
  · refine foldl_upsert_lastSeen_inv now (gkey g) S2 db1 ?_ r hr hk
    intro r0 hr0 hk0
    exact (upsert_key_fields now _ g r0 hr0 hk0).1
  · refine foldl_upsert_status_inv now (gkey g) g.status S2 db1 ?_ ?_ r hr hk
    · intro r0 hr0 hk0
      exact (upsert_key_fields now _ g r0 hr0 hk0).2
    · intro g2 hg2 hk2
      exact hagree g2 (List.mem_append_right S1 (List.mem_cons_of_mem g hg2))
        hk2

/- ### Claim C2 -/

/-- C2 amended: a fetched record with an active status whose lookup key
(title, availableUntil) matches no currently-active stored record is
classified as new by the Change Detector, landing in the partition of its
own status.  (The claim quantifies the condition over a single stored row;
the code compares against every active stored row, see the
counterexample.) -/
theorem c2_recurrence_is_new (now : Int) (db : List Row)
    (scraped : List Game) (g : Game) (r0 : Row)
    (hr0 : r0 ∈ db) (hr0a : ActiveAt now r0)
    (htitle : g.title = r0.title) (hfree : g.freeTo ≠ r0.freeTo)
    (hst : g.status = statusFreeNow ∨ g.status = statusComingSoon)
    (hg : g ∈ scraped)
    (hnok : ∀ r ∈ db, ActiveAt now r → rowLookupKey r ≠ lookupKey g) :
    g ∈ (findNewGames scraped
          (NewGameCollection (getActiveGames now db))).FreeNow ∨
    g ∈ (findNewGames scraped
          (NewGameCollection (getActiveGames now db))).ComingSoon := by
  have hnot : lookupKey g ∉
      existingKeys (NewGameCollection (getActiveGames now db)) := by
    intro hin
    rcases existing_key_from_active now db _ hin with ⟨r, hr, ha, hke⟩
    exact hnok r hr ha hke
  rcases hst with h | h
  · exact Or.inl ((mem_findNewGames_freeNow _ _ _).mpr ⟨hg, hnot, h⟩)
  · exact Or.inr ((mem_findNewGames_comingSoon _ _ _).mpr ⟨hg, hnot, h⟩)

/-- Stored row: title T, availableUntil D1, Free Now, freshly seen. -/
def rowTeeD1 : Row :=
  { title := "T", imageURL := "", status := statusFreeNow, freeFrom := "",
    freeTo := "D1", createdAt := 0, updatedAt := 0, lastSeen := 0 }

/-- Stored row: the same title T already active with availableUntil D2. -/
def rowTeeD2 : Row :=
  { title := "T", imageURL := "", status := statusFreeNow, freeFrom := "",
    freeTo := "D2", createdAt := 0, updatedAt := 0, lastSeen := 0 }

/-- Fetched record: title T with availableUntil D2. -/
def gameTeeD2 : Game :=
  { title := "T", imageURL := "", status := statusFreeNow, freeFrom := "",
    freeTo := "D2" }

/-- Counterexample to C2 as stated: the store holds the active promotion
(T, D1) — satisfying the claim's hypothesis — and also the active
promotion (T, D2); a fetch then reports (T, D2), same title as the (T, D1)
record and a different availableUntil, yet the Change Detector classifies
nothing as new: its output collection is empty. -/
theorem c2_counterexample :
    rowTeeD1 ∈ [rowTeeD1, rowTeeD2] ∧ ActiveAt 0 rowTeeD1 ∧
    (rowTeeD1.status = statusFreeNow ∨
      rowTeeD1.status = statusComingSoon) ∧
    gameTeeD2.title = rowTeeD1.title ∧
    gameTeeD2.freeTo ≠ rowTeeD1.freeTo ∧
    findNewGames [gameTeeD2]
        (NewGameCollection (getActiveGames 0 [rowTeeD1, rowTeeD2])) =
      { FreeNow := [], ComingSoon := [] } := by
  decide

/-- Witness for the amended C2: with only (T, D1) stored and active, the
re-offer (T, D2) is classified as new. -/
theorem c2_recurrence_is_new_witness :
    gameTeeD2 ∈ (findNewGames [gameTeeD2]
          (NewGameCollection (getActiveGames 0 [rowTeeD1]))).FreeNow ∨
    gameTeeD2 ∈ (findNewGames [gameTeeD2]
          (NewGameCollection (getActiveGames 0 [rowTeeD1]))).ComingSoon :=
  c2_recurrence_is_new 0 [rowTeeD1] [gameTeeD2] gameTeeD2 rowTeeD1
    (by decide) (by decide) (by decide) (by decide) (by decide) (by decide)
    (by decide)

/- ### Claim C3 -/

/-- C3 amended: running the Store-upsert plus Change-Detector pipeline
twice on the same snapshot yields no new records on the second pass,
provided the snapshot does not contain two records with the same composite
key but different statuses, and the second run happens while the first
run's rows are still within the 7-day active window. -/
theorem c3_idempotent_refetch (db0 : List Row) (lc t1 t2 : Int)
    (S : List Game)
    (hagree : ∀ g1 ∈ S, ∀ g2 ∈ S, gkey g1 = gkey g2 → g1.status = g2.status)
    (hwin : t2 - 7 * day < t1) :
    (findNewGames S (NewGameCollection (getActiveGames t2
        (performGameCheck
          { now := t1, attempts := [some S], readFail := false,
            saveFail := none, notifyFail := false }
          { db := db0, lastCheck := lc }).state.db))).FreeNow = [] ∧
    (findNewGames S (NewGameCollection (getActiveGames t2
        (performGameCheck
          { now := t1, attempts := [some S], readFail := false,
            saveFail := none, notifyFail := false }
          { db := db0, lastCheck := lc }).state.db))).ComingSoon = [] ∧
    (performGameCheck
        { now := t2, attempts := [some S], readFail := false,
          saveFail := none, notifyFail := false }
        (performGameCheck
          { now := t1, attempts := [some S], readFail := false,
            saveFail := none, notifyFail := false }
          { db := db0, lastCheck := lc }).state).notified = none := by
  by_cases hS : S = []
  · subst hS
    exact ⟨rfl, rfl, rfl⟩
  · have hdb :
        (performGameCheck
          { now := t1, attempts := [some S], readFail := false,
            saveFail := none, notifyFail := false }
          { db := db0, lastCheck := lc }).state.db = applySave t1 S db0 :=
      performGameCheck_db_ok t1 S { db := db0, lastCheck := lc } hS
    have hkey : ∀ g ∈ S,
        (g.status = statusFreeNow ∨ g.status = statusComingSoon) →
        lookupKey g ∈ existingKeys (NewGameCollection (getActiveGames t2
          (performGameCheck
            { now := t1, attempts := [some S], readFail := false,
              saveFail := none, notifyFail := false }
            { db := db0, lastCheck := lc }).state.db)) := by
      intro g hg hst
      obtain ⟨r, hr, hk, hls, hstat⟩ :=
        applySave_mem_of_scraped t1 S db0 g hg
          (fun g2 h2 hk2 => hagree g2 h2 g hg hk2)
      rw [← hdb] at hr
      have hact : ActiveAt t2 r :=
        ⟨by rw [hstat]; exact hst, by rw [hls]; exact hwin⟩
      have hmem := active_key_mem_existing t2 _ r hr hact
      have h1 : r.title = g.title := by
        simpa [rkey, gkey] using congrArg Prod.fst hk
      have h2 : r.freeTo = g.freeTo := by
        simpa [rkey, gkey] using congrArg Prod.snd hk
      have hkk : rowLookupKey r = lookupKey g := by
        rw [rowLookupKey, lookupKey, h1, h2]
      rwa [hkk] at hmem
    have hFN : (findNewGames S (NewGameCollection (getActiveGames t2
        (performGameCheck
          { now := t1, attempts := [some S], readFail := false,
            saveFail := none, notifyFail := false }
          { db := db0, lastCheck := lc }).state.db))).FreeNow = [] := by
      rw [List.eq_nil_iff_forall_not_mem]
      intro g hgmem
      rcases (mem_findNewGames_freeNow _ _ _).mp hgmem with ⟨hgS, hnot, hstat⟩
      exact hnot (hkey g hgS (Or.inl hstat))
    have hCS : (findNewGames S (NewGameCollection (getActiveGames t2
        (performGameCheck
          { now := t1, attempts := [some S], readFail := false,
            saveFail := none, notifyFail := false }
          { db := db0, lastCheck := lc }).state.db))).ComingSoon = [] := by
      rw [List.eq_nil_iff_forall_not_mem]
      intro g hgmem
      rcases (mem_findNewGames_comingSoon _ _ _).mp hgmem with
        ⟨hgS, hnot, hstat⟩
      exact hnot (hkey g hgS (Or.inr hstat))
    refine ⟨hFN, hCS, ?_⟩
    have hs : scrapeAttempts [some S] = some S := scrapeAttempts_single S hS
    have he : S.isEmpty = false := by simpa using hS
    generalize (performGameCheck
      { now := t1, attempts := [some S], readFail := false,
        saveFail := none, notifyFail := false }
      { db := db0, lastCheck := lc }).state = s1 at hFN hCS ⊢
    unfold performGameCheck
    simp only [hs, he, Bool.false_eq_true, if_false]
    unfold performSaveAndNotify
    simp only [saveGames_none]
    rw [hFN, hCS]
    simp

/-- Snapshot record (T, D) with status Free Now. -/
def gameDupFree : Game :=
  { title := "T", imageURL := "", status := statusFreeNow, freeFrom := "",
    freeTo := "D" }

/-- A second snapshot record with the same composite key (T, D) but an
unrecognized status string, as produced when the scraper fails to read the
status span of a card. -/
def gameDupOdd : Game :=
  { title := "T", imageURL := "", status := "Mystery", freeFrom := "",
    freeTo := "D" }

/-- The snapshot holding both records. -/
def snapshotDup : List Game := [gameDupFree, gameDupOdd]

/-- A failure-free cycle at time 0 fetching snapshotDup. -/
def cycleDup : CycleInput :=
  { now := 0, attempts := [some snapshotDup], readFail := false,
    saveFail := none, notifyFail := false }

/-- Counterexample to C3 as stated: feeding the very same snapshot twice
in immediate succession notifies a record again on the second pass.  The
snapshot holds two records with the same composite key and different
statuses; the second upsert overwrites the stored status, so the Free Now
record never enters the active set and is re-detected every cycle. -/
theorem c3_counterexample :
    (performGameCheck cycleDup
        (performGameCheck cycleDup emptyState).state).notified =
      some { FreeNow := [gameDupFree], ComingSoon := [] } := by
  decide

/-- A single promotion record for the idempotence witness. -/
def gameBeta : Game :=
  { title := "Beta", imageURL := "", status := statusFreeNow,
    freeFrom := "", freeTo := "Sep 01" }

/-- Failure-free cycle at time 0 fetching the Beta record. -/
def cycleBetaFirst : CycleInput :=
  { now := 0, attempts := [some [gameBeta]], readFail := false,
    saveFail := none, notifyFail := false }

/-- The same fetch six hours later (the scheduler interval). -/
def cycleBetaSecond : CycleInput :=
  { now := 21600, attempts := [some [gameBeta]], readFail := false,
    saveFail := none, notifyFail := false }

/-- Witness for the amended C3: refetching the Beta snapshot after the
regular six-hour interval notifies nothing on the second pass. -/
theorem c3_idempotent_refetch_witness :
    (performGameCheck cycleBetaSecond
        (performGameCheck cycleBetaFirst emptyState).state).notified =
      none :=
  (c3_idempotent_refetch [] 0 0 21600 [gameBeta]
    (by decide) (by decide)).2.2

/- ### Claim C5 -/

theorem foldl_upsert_lastSeen_touched (now : Int) :
    ∀ (games : List Game) (db : List Row) (r : Row),
      r ∈ games.foldl (upsert now) db →
      (∃ g ∈ games, gkey g = rkey r) → r.lastSeen = now := by
  intro games
  induction games with
  | nil =>
    intro db r _ hex
    rcases hex with ⟨g, hg, _⟩
    cases hg
  | cons g0 rest ih =>
    intro db r hmem hex
    by_cases hrest : ∃ g ∈ rest, gkey g = rkey r
    · exact ih (upsert now db g0) r hmem hrest
    · have hg0 : gkey g0 = rkey r := by
        rcases hex with ⟨g, hg, hk⟩
        rcases List.mem_cons.mp hg with he | he
        · rw [← he]; exact hk
        · exact absurd ⟨g, he, hk⟩ hrest
      refine foldl_upsert_lastSeen_inv now (rkey r) rest (upsert now db g0)
        ?_ r hmem rfl
      intro r0 hr0 hk0
      exact (upsert_key_fields now db g0 r0 hr0 (hk0.trans hg0.symm)).1

/-- A stored row seen at time 0. -/
def rowGamma : Row :=
  { title := "Gamma", imageURL := "", status := statusFreeNow,
    freeFrom := "", freeTo := "Oct 01", createdAt := 0, updatedAt := 0,
    lastSeen := 0 }

/-- rowGamma after the mark-stale statement of a save at time 0. -/
def rowGammaMarked : Row :=
  { title := "Gamma", imageURL := "", status := statusFreeNow,
    freeFrom := "", freeTo := "Oct 01", createdAt := 0, updatedAt := 0,
    lastSeen := -86400 }

/-- Counterexample to C5 as stated: the mark-stale statement of SaveGames
sets the last-seen marker to one day in the past, which is not older than
the 7-day retention threshold (nor the 30-day purge threshold); the
marked row is even still returned by GetActiveGames. -/
theorem c5_counterexample :
    markStale 0 [rowGamma] = [rowGammaMarked] ∧
    ¬ rowGammaMarked.lastSeen < 0 - 7 * day ∧
    ¬ rowGammaMarked.lastSeen < 0 - 30 * day ∧
    rowToGame rowGammaMarked ∈ getActiveGames 0 (markStale 0 [rowGamma]) := by
  decide

/-- C5 amended: at the start of every SaveGames batch every stored row has
its last-seen marker set to one day before the batch time — stale
relative to now but still inside the 7-day active window — and the
marking is reversed (to the batch time) exactly for the rows whose
composite key occurs in the batch. -/
theorem c5_stale_marking (now : Int) (games : List Game) (db : List Row) :
    (∀ r ∈ markStale now db, r.lastSeen = now - day) ∧
    (∀ r ∈ markStale now db,
      (r.status = statusFreeNow ∨ r.status = statusComingSoon) →
      ActiveAt now r) ∧
    (∀ r ∈ applySave now games db,
      (rkey r ∈ games.map gkey → r.lastSeen = now) ∧
      (rkey r ∉ games.map gkey → r.lastSeen = now - day)) := by
  refine ⟨markStale_lastSeen now db, ?_, ?_⟩
  · intro r hr hst
    refine ⟨hst, ?_⟩
    rw [markStale_lastSeen now db r hr]
    have : (7 : Int) * day = 604800 := by decide
    rw [this]
    have hday : day = 86400 := by decide
    rw [hday]
    omega
  · intro r hr
    constructor
    · intro hkmem
      rcases List.mem_map.mp hkmem with ⟨g, hg, hk⟩
      exact foldl_upsert_lastSeen_touched now games (markStale now db) r hr
        ⟨g, hg, hk⟩
    · intro hknot
      have hne : ∀ g ∈ games, gkey g ≠ rkey r := by
        intro g hg hk
        exact hknot (List.mem_map.mpr ⟨g, hg, hk⟩)
      exact markStale_lastSeen now db r
        (foldl_upsert_untouched now games (markStale now db) r hr hne)

/-- A batch record whose key is absent from the Gamma table. -/
def gameDelta : Game :=
  { title := "Delta", imageURL := "", status := statusFreeNow,
    freeFrom := "", freeTo := "Nov 01" }

/-- Witness for the amended C5: in a save of the Delta batch over the
Gamma table at time 0, the freshly upserted Delta row carries last-seen 0
while the untouched Gamma row keeps the one-day-old marker. -/
theorem c5_stale_marking_witness :
    (freshRow 0 gameDelta).lastSeen = 0 ∧
    rowGammaMarked.lastSeen = 0 - day :=
  ⟨((c5_stale_marking 0 [gameDelta] [rowGamma]).2.2 (freshRow 0 gameDelta)
      (by decide)).1 (by decide),
   ((c5_stale_marking 0 [gameDelta] [rowGamma]).2.2 rowGammaMarked
      (by decide)).2 (by decide)⟩

/- ### Claim C6 -/

theorem rkey_eq_of_rowToGame_eq (r1 r2 : Row)
    (h : rowToGame r1 = rowToGame r2) : rkey r1 = rkey r2 := by
  have h1 : r1.title = r2.title := congrArg Game.title h
  have h2 : r1.freeTo = r2.freeTo := congrArg Game.freeTo h
  rw [rkey, rkey, h1, h2]

/-- A row created at time 0 and never seen again. -/
def rowOld : Row :=
  { title := "Old", imageURL := "", status := statusFreeNow,
    freeFrom := "", freeTo := "Jan 01", createdAt := 0, updatedAt := 0,
    lastSeen := 0 }

/-- Counterexample to C6 as stated: forty days on, rowOld's last-seen
marker is far older than the 30-day purge window, yet GetNewGames (the
getCreatedSince query) still returns it for any cutoff before its
creation time — the query filters only on created_at and status, never on
last_seen. -/
theorem c6_counterexample :
    rowOld.lastSeen < 40 * day - 30 * day ∧
    rowToGame rowOld ∈ getNewGames (-1) [rowOld] := by
  decide

/-- C6 amended: a record whose last-seen marker is older than the purge
window is absent from every subsequent GetActiveGames result, and once
CleanupOldGames has run it is deleted, after which it is absent from
GetNewGames results too.  The Nodup hypothesis is the UNIQUE(title,
free_to) index of the games table. -/
theorem c6_purge_retention (now since : Int) (db : List Row) (r : Row)
    (hnd : (db.map rkey).Nodup) (hr : r ∈ db)
    (hstale : r.lastSeen < now - 30 * day) :
    rowToGame r ∉ getActiveGames now db ∧
    r ∉ cleanupOldGames now db ∧
    rowToGame r ∉ getNewGames since (cleanupOldGames now db) := by
  have hinj := List.inj_on_of_nodup_map hnd
  have hday : day = 86400 := rfl
  have hact : ¬ ActiveAt now r := by
    intro h
    have h2 := h.2
    rw [hday] at h2 hstale
    omega
  have hclean : r ∉ cleanupOldGames now db := by
    intro hmem
    have h2 := (List.mem_filter.mp hmem).2
    simp only [decide_eq_true_eq] at h2
    exact h2 hstale
  refine ⟨?_, hclean, ?_⟩
  · intro hmem
    rcases List.mem_map.mp hmem with ⟨r2, hr2, heq⟩
    have hr2i := mem_getActiveRows_inv now db r2 hr2
    have he : r2 = r := hinj hr2i.1 hr (rkey_eq_of_rowToGame_eq r2 r heq)
    rw [he] at hr2i
    exact hact hr2i.2
  · intro hmem
    rcases List.mem_map.mp hmem with ⟨r2, hr2, heq⟩
    rw [getNewRows, List.mem_insertionSort] at hr2
    have hr2c : r2 ∈ cleanupOldGames now db := (List.mem_filter.mp hr2).1
    have hr2db : r2 ∈ db := (List.mem_filter.mp hr2c).1
    have he : r2 = r := hinj hr2db hr (rkey_eq_of_rowToGame_eq r2 r heq)
    rw [he] at hr2c
    exact hclean hr2c

/-- Witness for the amended C6 at the concrete stale row. -/
theorem c6_purge_retention_witness :
    rowToGame rowOld ∉ getActiveGames (40 * day) [rowOld] ∧
    rowOld ∉ cleanupOldGames (40 * day) [rowOld] ∧
    rowToGame rowOld ∉ getNewGames (-1) (cleanupOldGames (40 * day) [rowOld]) :=
  c6_purge_retention (40 * day) (-1) [rowOld] rowOld (by decide) (by decide)
    (by decide)

/-- A cycle whose save transaction fails at its first statement. -/
def cycleSaveFail : CycleInput :=
  { now := 0, attempts := [some [gameDelta]], readFail := false,
    saveFail := some 0, notifyFail := false }

/-- A one-row application state. -/
def stateGamma : AppState := { db := [rowGamma], lastCheck := 0 }

/-- Witness for C8: a cycle whose SaveGames transaction fails on its first
statement leaves the table as it was, notifies nobody, and reports the
error. -/
theorem c8_save_atomic_aborts_before_notify_witness :
    performGameCheck cycleSaveFail stateGamma =
      { state := stateGamma, notified := none, failed := true } :=
  c8_save_atomic_aborts_before_notify.2 cycleSaveFail stateGamma
    [gameDelta] rfl rfl rfl rfl
